import Mathlib

/-!
# Execute stage and branch predictor of the tinyrv core

A shallow embedding of `Core::alu_unit`, `Core::branch_unit`,
`Core::mem_access`, `Core::get_csr` and `Core::set_csr`
(project1/src/execute.cpp) and of the `GShare` predictor
(project2/src/gshare.cpp, gshare.h).  Values of type `uint32_t` are natural numbers below
`2 ^ 32`; every arithmetic step that can wrap carries its reduction
explicitly.  Signed reinterpretations (`(int32_t)x`, `(int64_t)x`) are
integers.  A call of `std::abort()` and an operation the C++ standard leaves
undefined are both outcomes of the embedded functions, kept apart from a
normal return.
-/

namespace tinyrv

/-! ## Outcomes -/

/-- Outcome of running a function body: a normal return, a call of
`std::abort()`, or an operation whose behaviour C++ leaves undefined. -/
inductive Outcome (α : Type) where
  | ok (v : α)
  | abort
  | undefined
  deriving DecidableEq, Repr

/-! ## Machine integers -/

/-- Reading of a 32-bit pattern as `int32_t`. -/
def to_int32 (x : Nat) : Int :=
  if x < 2147483648 then (x : Int) else (x : Int) - 4294967296

/-- Conversion of an integer to `uint32_t`. -/
def to_uint32 (x : Int) : Nat := (x % 4294967296).toNat

/-- Reading of a 64-bit pattern as `int64_t`. -/
def to_int64 (x : Nat) : Int :=
  if x < 9223372036854775808 then (x : Int) else (x : Int) - 18446744073709551616

/-- Conversion of an integer to `uint64_t`. -/
def to_uint64 (x : Int) : Nat := (x % 18446744073709551616).toNat

/-! ## Decoded instruction

The declarations of `Instr`, `AluOp` and `BrOp` live in headers; the
structures below hold exactly the accessors the execute stage reads. -/

/-- ALU selector.  The named constructors are the `case` labels of the
switch in `alu_unit`; `other` stands for any selector value that reaches the
`default` label. -/
inductive AluOp where
  | NONE | ADD | SUB | MUL | MULH | MULHSU | MULHU
  | AND | OR | XOR | SLL | SRL | SRA | LTI | LTU
  | other (code : Nat)
  deriving DecidableEq, Repr

/-- Branch selector.  The named constructors are the `case` labels of the
switch in `branch_unit`; `other` stands for any selector value that reaches
the `default` label. -/
inductive BrOp where
  | NONE | JAL | JALR | BEQ | BNE | BLT | BGE | BLTU | BGEU
  | other (code : Nat)
  deriving DecidableEq, Repr

/-- Execute flags read through `instr.getExeFlags()`. -/
structure ExeFlags where
  alu_s1_PC : Bool
  alu_s1_rs1 : Bool
  alu_s1_inv : Bool
  alu_s2_imm : Bool
  is_load : Bool
  is_store : Bool
  is_csr : Bool
  deriving DecidableEq, Repr

/-- Decoded instruction, as far as the execute stage reads it. -/
structure Instr where
  getExeFlags : ExeFlags
  getAluOp : AluOp
  getBrOp : BrOp
  getFunc3 : Nat
  getImm : Nat
  getRs1 : Nat
  deriving DecidableEq, Repr

/-! ## `Core::alu_unit` -/

/-- First ALU operand (`alu_s1` after lines 35-42): the PC, the rs1 register
index or the rs1 value, complemented under `alu_s1_inv`. -/
def alu_s1 (instr : Instr) (rs1_data PC : Nat) : Nat :=
  let s1 :=
    if instr.getExeFlags.alu_s1_PC then PC
    else (if instr.getExeFlags.alu_s1_rs1 then instr.getRs1 else rs1_data)
  if instr.getExeFlags.alu_s1_inv then s1 ^^^ 4294967295 else s1

/-- Second ALU operand (`alu_s2`, line 38). -/
def alu_s2 (instr : Instr) (rs2_data : Nat) : Nat :=
  if instr.getExeFlags.alu_s2_imm then instr.getImm else rs2_data

/-- The switch over `alu_op` (lines 44-112) on the two selected operands.
A shift whose count is not below the operand width is undefined in C++. -/
def alu_exec (op : AluOp) (s1 s2 : Nat) : Outcome Nat :=
  match op with
  | .NONE => .ok 0
  | .ADD => .ok ((s1 + s2) % 4294967296)
  | .SUB => .ok ((s1 + 4294967296 - s2) % 4294967296)
  | .MUL => .ok ((s1 * s2) % 4294967296)
  | .MULH =>
      -- the product of two sign-extended 32-bit values fits `int64_t`
      let temp : Int := to_int32 s1 * to_int32 s2
      .ok (to_uint32 (temp >>> (32 : Nat)))
  | .MULHSU =>
      -- `int64_t * uint64_t` is computed in `uint64_t`, then stored in `int64_t`
      let temp : Int := to_int64 ((to_uint64 (to_int32 s1) * s2) % 18446744073709551616)
      .ok (to_uint32 (temp >>> (32 : Nat)))
  | .MULHU =>
      let temp : Nat := (s1 * s2) % 18446744073709551616
      .ok ((temp >>> 32) % 4294967296)
  | .AND => .ok (s1 &&& s2)
  | .OR => .ok (s1 ||| s2)
  | .XOR => .ok (s1 ^^^ s2)
  | .SLL => if s2 < 32 then .ok ((s1 <<< s2) % 4294967296) else .undefined
  | .SRL => if s2 < 32 then .ok (s1 >>> s2) else .undefined
  | .SRA => if s2 < 32 then .ok (to_uint32 (to_int32 s1 >>> s2)) else .undefined
  | .LTI => .ok (if to_int32 s1 < to_int32 s2 then 1 else 0)
  | .LTU => .ok (if s1 < s2 then 1 else 0)
  | .other _ => .abort

/-- The function `Core::alu_unit`. -/
def alu_unit (instr : Instr) (rs1_data rs2_data PC : Nat) : Outcome Nat :=
  alu_exec instr.getAluOp (alu_s1 instr rs1_data PC) (alu_s2 instr rs2_data)

/-! ## Core state and collaborators -/

/-- The counters behind `perf_stats_` (both `uint64_t`). -/
structure PerfStats where
  cycles : Nat
  instrs : Nat
  deriving DecidableEq, Repr

/-- The members of `Core` that the execute stage reads or writes.  The class
of the fetch/decode pipeline register is declared in a header, so its type
`Reg` is a parameter. -/
structure Core (Reg : Type) where
  PC_ : Nat
  if_id_ : Reg
  fetch_stalled_ : Bool
  perf_stats_ : PerfStats
  deriving DecidableEq, Repr

/-- A call that the execute stage makes on a collaborator: the memory
subsystem, the console sink, the CSR file or a branch predictor. -/
inductive Call where
  | mmu_read (addr size : Nat)
  | mmu_write (data addr size : Nat)
  | writeToStdOut (data : Nat)
  | set_csr (addr value : Nat)
  | bp_update (PC next_PC : Nat) (taken : Bool)
  deriving DecidableEq, Repr

/-- Constants that the execute stage takes from headers: the console window
and the CSR addresses used as `case` labels. -/
structure Consts where
  IO_COUT_ADDR : Nat
  IO_COUT_SIZE : Nat
  VX_CSR_MHARTID : Nat
  VX_CSR_SATP : Nat
  VX_CSR_PMPCFG0 : Nat
  VX_CSR_PMPADDR0 : Nat
  VX_CSR_MSTATUS : Nat
  VX_CSR_MISA : Nat
  VX_CSR_MEDELEG : Nat
  VX_CSR_MIDELEG : Nat
  VX_CSR_MIE : Nat
  VX_CSR_MTVEC : Nat
  VX_CSR_MEPC : Nat
  VX_CSR_MNSTATUS : Nat
  VX_CSR_MCYCLE : Nat
  VX_CSR_MCYCLE_H : Nat
  VX_CSR_MINSTRET : Nat
  VX_CSR_MINSTRET_H : Nat
  deriving DecidableEq, Repr

/-- What a unit hands back: the destination value, the core afterwards and
the calls made on collaborators, oldest first. -/
structure Step (Reg : Type) where
  rd_data : Nat
  core : Core Reg
  calls : List Call
  deriving DecidableEq, Repr

/-! ## `Core::branch_unit` -/

/-- The switch over `br_op` (lines 119-155): the value of `br_taken`. -/
def br_taken (op : BrOp) (rs1_data rs2_data : Nat) : Outcome Bool :=
  match op with
  | .NONE => .ok false
  | .JAL => .ok true
  | .JALR => .ok true
  | .BEQ => .ok (decide (rs1_data = rs2_data))
  | .BNE => .ok (decide (rs1_data ≠ rs2_data))
  | .BLT => .ok (decide (to_int32 rs1_data < to_int32 rs2_data))
  | .BGE => .ok (decide (to_int32 rs1_data ≥ to_int32 rs2_data))
  | .BLTU => .ok (decide (rs1_data < rs2_data))
  | .BGEU => .ok (decide (rs1_data ≥ rs2_data))
  | .other _ => .abort

/-- The value of `br_target` when line 169 tests it: the incoming `rd_data`,
with bit 0 cleared for JALR (`br_target &= ~0x1`). -/
def br_target (op : BrOp) (rd_data : Nat) : Nat :=
  if op = .JALR then rd_data &&& 4294967294 else rd_data

/-- The misprediction block (lines 170-173): redirect and flush. -/
def flush {Reg : Type} (reset : Reg → Reg) (core : Core Reg) (target : Nat) : Core Reg :=
  { core with PC_ := target, if_id_ := reset core.if_id_, fetch_stalled_ := false }

/-- The function `Core::branch_unit`; `reset` is `if_id_.reset()`.  The body
calls no collaborator, so the list of calls it returns is empty. -/
def branch_unit {Reg : Type} (reset : Reg → Reg) (core : Core Reg) (instr : Instr)
    (rs1_data rs2_data rd_data PC : Nat) : Outcome (Step Reg) :=
  let br_op := instr.getBrOp
  match br_taken br_op rs1_data rs2_data with
  | .abort => .abort
  | .undefined => .undefined
  | .ok taken =>
    if br_op ≠ .NONE then
      if taken then
        let next_PC := (PC + 4) % 4294967296
        let target := br_target br_op rd_data
        let rd_data := if br_op = .JAL ∨ br_op = .JALR then next_PC else rd_data
        if br_op ≠ .JAL ∧ target ≠ next_PC then
          .ok ⟨rd_data, flush reset core target, []⟩
        else
          .ok ⟨rd_data, core, []⟩
      else
        .ok ⟨rd_data, core, []⟩
    else
      .ok ⟨rd_data, core, []⟩

/-! ## CSR file -/

/-- The function `Core::get_csr`. -/
def get_csr {Reg : Type} (k : Consts) (core : Core Reg) (addr : Nat) : Outcome Nat :=
  if addr = k.VX_CSR_MHARTID ∨ addr = k.VX_CSR_SATP ∨ addr = k.VX_CSR_PMPCFG0
      ∨ addr = k.VX_CSR_PMPADDR0 ∨ addr = k.VX_CSR_MSTATUS ∨ addr = k.VX_CSR_MISA
      ∨ addr = k.VX_CSR_MEDELEG ∨ addr = k.VX_CSR_MIDELEG ∨ addr = k.VX_CSR_MIE
      ∨ addr = k.VX_CSR_MTVEC ∨ addr = k.VX_CSR_MEPC ∨ addr = k.VX_CSR_MNSTATUS then
    .ok 0
  else if addr = k.VX_CSR_MCYCLE then
    .ok (core.perf_stats_.cycles &&& 4294967295)
  else if addr = k.VX_CSR_MCYCLE_H then
    .ok ((core.perf_stats_.cycles >>> 32) % 4294967296)
  else if addr = k.VX_CSR_MINSTRET then
    .ok (core.perf_stats_.instrs &&& 4294967295)
  else if addr = k.VX_CSR_MINSTRET_H then
    .ok ((core.perf_stats_.instrs >>> 32) % 4294967296)
  else
    .abort

/-- The function `Core::set_csr`: a listed address is accepted and the value
dropped, any other address aborts. -/
def set_csr {Reg : Type} (k : Consts) (core : Core Reg) (addr value : Nat) :
    Outcome (Core Reg) :=
  if addr = k.VX_CSR_SATP ∨ addr = k.VX_CSR_MSTATUS ∨ addr = k.VX_CSR_MEDELEG
      ∨ addr = k.VX_CSR_MIDELEG ∨ addr = k.VX_CSR_MIE ∨ addr = k.VX_CSR_MTVEC
      ∨ addr = k.VX_CSR_MEPC ∨ addr = k.VX_CSR_PMPCFG0 ∨ addr = k.VX_CSR_PMPADDR0
      ∨ addr = k.VX_CSR_MNSTATUS then
    .ok core
  else
    .abort

/-! ## `Core::mem_access` -/

/-- Modelled from the spec: `sext` is defined in `util.h`, which is not among
the sources.  The spec has the byte and halfword load codes "sign-extend the
read value to 32 bits": the low `width` bits of `word` are kept and bit
`width - 1` is copied into every higher bit of the 32-bit result. -/
def sext (word width : Nat) : Nat :=
  let low := word % 2 ^ width
  if low < 2 ^ (width - 1) then low else low + (4294967296 - 2 ^ width)

/-- The function `Core::dmem_read`: `read_data` starts as zero and the memory
subsystem fills its `size` low bytes, so the value left in it is the value
`mmu` supplies for these bytes, below `2 ^ (8 * size)`. -/
def dmem_read (mmu : Nat → Nat → Nat) (addr size : Nat) : Nat × List Call :=
  (mmu addr size % 2 ^ (8 * size), [Call.mmu_read addr size])

/-- The function `Core::dmem_write`: a store into the console window goes to
the console, any other to the memory subsystem. -/
def dmem_write (k : Consts) (data addr size : Nat) : List Call :=
  if addr ≥ k.IO_COUT_ADDR ∧ addr < k.IO_COUT_ADDR + k.IO_COUT_SIZE then
    [Call.writeToStdOut data]
  else
    [Call.mmu_write data addr size]

/-- The load block of `mem_access` (lines 192-215). -/
def mem_load (mmu : Nat → Nat → Nat) (func3 rd_data : Nat) : Outcome (Nat × List Call) :=
  let mem_addr := rd_data
  let data_bytes := 1 <<< (func3 &&& 3)
  let data_width := 8 * data_bytes
  let (read_data, calls) := dmem_read mmu mem_addr data_bytes
  if func3 = 0 ∨ func3 = 1 then .ok (sext read_data data_width, calls)
  else if func3 = 2 then .ok (read_data, calls)
  else if func3 = 4 ∨ func3 = 5 then .ok (read_data, calls)
  else .abort

/-- The store block of `mem_access` (lines 218-230). -/
def mem_store (k : Consts) (func3 rd_data rs2_data : Nat) : Outcome (List Call) :=
  let mem_addr := rd_data
  let data_bytes := 1 <<< (func3 &&& 3)
  if func3 = 0 ∨ func3 = 1 ∨ func3 = 2 then .ok (dmem_write k rs2_data mem_addr data_bytes)
  else .abort

/-- The CSR block of `mem_access` (lines 233-238). -/
def mem_csr {Reg : Type} (k : Consts) (core : Core Reg) (imm rd_data rs2_data : Nat) :
    Outcome (Step Reg) :=
  if rs2_data ≠ rd_data then
    match set_csr k core imm rd_data with
    | .ok core1 => .ok ⟨rs2_data, core1, [Call.set_csr imm rd_data]⟩
    | .abort => .abort
    | .undefined => .undefined
  else
    .ok ⟨rs2_data, core, []⟩

/-- The function `Core::mem_access`: the load, store and CSR blocks run in
this order, each under its own flag; `mmu` is what the memory subsystem
returns for a read of `size` bytes at `addr`. -/
def mem_access {Reg : Type} (k : Consts) (mmu : Nat → Nat → Nat) (core : Core Reg)
    (instr : Instr) (rd_data rs2_data : Nat) : Outcome (Step Reg) :=
  let exe_flags := instr.getExeFlags
  let func3 := instr.getFunc3
  match (if exe_flags.is_load then mem_load mmu func3 rd_data else .ok (rd_data, [])) with
  | .abort => .abort
  | .undefined => .undefined
  | .ok (rd_data, calls1) =>
    match (if exe_flags.is_store then mem_store k func3 rd_data rs2_data else .ok []) with
    | .abort => .abort
    | .undefined => .undefined
    | .ok calls2 =>
      if exe_flags.is_csr then
        match mem_csr k core instr.getImm rd_data rs2_data with
        | .abort => .abort
        | .undefined => .undefined
        | .ok r => .ok ⟨r.rd_data, r.core, calls1 ++ calls2 ++ r.calls⟩
      else
        .ok ⟨rd_data, core, calls1 ++ calls2⟩


/-! ## CSR address sets -/

/-- The addresses named by the `case` labels of `get_csr`: the CSR
whitelist. -/
def Consts.whitelist (k : Consts) : List Nat :=
  [k.VX_CSR_MHARTID, k.VX_CSR_SATP, k.VX_CSR_PMPCFG0, k.VX_CSR_PMPADDR0,
   k.VX_CSR_MSTATUS, k.VX_CSR_MISA, k.VX_CSR_MEDELEG, k.VX_CSR_MIDELEG,
   k.VX_CSR_MIE, k.VX_CSR_MTVEC, k.VX_CSR_MEPC, k.VX_CSR_MNSTATUS,
   k.VX_CSR_MCYCLE, k.VX_CSR_MCYCLE_H, k.VX_CSR_MINSTRET, k.VX_CSR_MINSTRET_H]

/-- The four counter-word addresses: cycle low/high, retired-instruction
low/high. -/
def Consts.counters (k : Consts) : List Nat :=
  [k.VX_CSR_MCYCLE, k.VX_CSR_MCYCLE_H, k.VX_CSR_MINSTRET, k.VX_CSR_MINSTRET_H]

/-- The addresses named by the `case` labels of `set_csr`. -/
def Consts.writable (k : Consts) : List Nat :=
  [k.VX_CSR_SATP, k.VX_CSR_MSTATUS, k.VX_CSR_MEDELEG, k.VX_CSR_MIDELEG,
   k.VX_CSR_MIE, k.VX_CSR_MTVEC, k.VX_CSR_MEPC, k.VX_CSR_PMPCFG0,
   k.VX_CSR_PMPADDR0, k.VX_CSR_MNSTATUS]

/-- The `case` labels of one switch are pairwise different; the switch of
`get_csr` names every CSR address. -/
def Consts.distinct (k : Consts) : Prop := k.whitelist.Nodup

instance (k : Consts) : Decidable k.distinct :=
  inferInstanceAs (Decidable k.whitelist.Nodup)

/-! ## Branch predictor (project2/src/gshare.h, gshare.cpp) -/

/-- The function `BranchPredictor::predict` of the base class. -/
def BranchPredictor.predict (PC : Nat) : Nat := (PC + 4) % 4294967296

/-- An entry of the branch target buffer. -/
structure BTB_entry_t where
  valid : Bool
  tag : Nat
  target : Nat
  deriving DecidableEq, Repr

/-- The data members of `GShare`; the two vectors are lists. -/
structure GShare where
  BTB_ : List BTB_entry_t
  BHT_ : List Nat
  BHR_ : Nat
  BTB_shift_ : Nat
  BTB_mask_ : Nat
  BHR_mask_ : Nat
  deriving DecidableEq, Repr

/-- The constructor `GShare::GShare`.  The function `log2ceil` comes from a
header and is a parameter.  `(1 << BHR_size)` is computed in `int`, so for
`BHR_size` of 31 or more the shift or the subtraction of 1 is undefined.
`BTB_size - 1` is computed in `uint32_t`. -/
def GShare.new (log2ceil : Nat → Nat) (BTB_size BHR_size : Nat) : Outcome GShare :=
  if BHR_size < 31 then
    .ok { BTB_ := List.replicate BTB_size ⟨false, 0, 0⟩
          BHT_ := List.replicate (1 <<< BHR_size) 0
          BHR_ := 0
          BTB_shift_ := log2ceil BTB_size
          BTB_mask_ := (BTB_size + 4294967296 - 1) % 4294967296
          BHR_mask_ := (1 <<< BHR_size) - 1 }
  else
    .undefined

/-- The function `GShare::predict`.  An access behind the end of a vector
and a shift by 32 or more are undefined. -/
def GShare.predict (g : GShare) (PC : Nat) : Outcome (Nat × GShare) :=
  let next_PC := (PC + 4) % 4294967296
  let bht_index := ((PC >>> 2) ^^^ g.BHR_) &&& g.BHR_mask_
  match g.BHT_[bht_index]? with
  | none => .undefined
  | some count =>
    let predict_taken := decide (count ≥ 2)
    if predict_taken then
      let btb_index := (PC >>> 2) &&& g.BTB_mask_
      if g.BTB_shift_ + 2 < 32 then
        let btb_tag := PC >>> (g.BTB_shift_ + 2)
        match g.BTB_[btb_index]? with
        | none => .undefined
        | some btb_row =>
          if btb_row.valid ∧ btb_row.tag = btb_tag then .ok (btb_row.target, g)
          else .ok (next_PC, g)
      else
        .undefined
    else
      .ok (next_PC, g)

/-- The expression `count++` on a `uint32_t`: its value is the value of
`count` before the increment, paired here with what `count` holds after. -/
def post_increment (count : Nat) : Nat × Nat := (count, (count + 1) % 4294967296)

/-- The expression `count--` on a `uint32_t`: its value is the value of
`count` before the decrement, paired here with what `count` holds after. -/
def post_decrement (count : Nat) : Nat × Nat :=
  (count, (count + 4294967296 - 1) % 4294967296)

/-- The function `inc_two_bit_counter`: `count == 3 ? count : count++`. -/
def inc_two_bit_counter (count : Nat) : Nat :=
  if count = 3 then count else (post_increment count).1

/-- The function `dec_two_bit_counter`: `count == 0 ? count : count--`. -/
def dec_two_bit_counter (count : Nat) : Nat :=
  if count = 0 then count else (post_decrement count).1

/-- The function `GShare::update_bht`. -/
def GShare.update_bht (g : GShare) (PC : Nat) (taken : Bool) : Outcome GShare :=
  let bht_index := ((PC >>> 2) ^^^ g.BHR_) &&& g.BHR_mask_
  match g.BHT_[bht_index]? with
  | none => .undefined
  | some count =>
    if taken then .ok { g with BHT_ := g.BHT_.set bht_index (inc_two_bit_counter count) }
    else .ok { g with BHT_ := g.BHT_.set bht_index (dec_two_bit_counter count) }

/-- The function `GShare::update_btb`.  The index is not masked.  `row` is
declared as a `BTB_entry_t`, not as a reference: it is a copy of the entry,
the three assignments change the copy and the table keeps its entry. -/
def GShare.update_btb (g : GShare) (PC next_PC : Nat) : Outcome GShare :=
  let btb_index := (PC >>> 2) ^^^ g.BHR_
  match g.BTB_[btb_index]? with
  | none => .undefined
  | some row =>
    if g.BTB_shift_ + 2 < 32 then
      let _row : BTB_entry_t :=
        { row with valid := true, target := next_PC, tag := PC >>> (g.BTB_shift_ + 2) }
      .ok g
    else
      .undefined

/-- The function `GShare::update_bhr`: `BHR_ = BHR_ << 1 | taken` in
`uint32_t`. -/
def GShare.update_bhr (g : GShare) (taken : Bool) : GShare :=
  { g with BHR_ := ((g.BHR_ <<< 1) % 4294967296) ||| (if taken then 1 else 0) }

/-- The function `GShare::update`. -/
def GShare.update (g : GShare) (PC next_PC : Nat) (taken : Bool) : Outcome GShare :=
  match g.update_bht PC taken with
  | .abort => .abort
  | .undefined => .undefined
  | .ok g1 =>
    match (if taken then g1.update_btb PC next_PC else .ok g1) with
    | .abort => .abort
    | .undefined => .undefined
    | .ok g2 => .ok (g2.update_bhr taken)

/-- A call on the predictor from outside. -/
inductive PredictorCall where
  | predict (PC : Nat)
  | update (PC next_PC : Nat) (taken : Bool)
  deriving DecidableEq, Repr

/-- The predictor after a sequence of calls, each of which returns. -/
def GShare.run (g : GShare) : List PredictorCall → Outcome GShare
  | [] => .ok g
  | .predict PC :: rest =>
    match g.predict PC with
    | .ok (_, g1) => g1.run rest
    | .abort => .abort
    | .undefined => .undefined
  | .update PC next_PC taken :: rest =>
    match g.update PC next_PC taken with
    | .ok g1 => g1.run rest
    | .abort => .abort
    | .undefined => .undefined

/-! ## Sample inputs -/

/-- Execute flags with no flag set. -/
def no_flags : ExeFlags := ⟨false, false, false, false, false, false, false⟩

/-- A core whose fetch/decode register is a valid bit, set, with a pending
fetch stall. -/
def sample_core : Core Bool := ⟨0, true, true, ⟨0, 0⟩⟩

/-- Reset of the sample fetch/decode register: the valid bit is cleared. -/
def sample_reset : Bool → Bool := fun _ => false

/-- A BEQ instruction. -/
def beq_instr : Instr := ⟨no_flags, .ADD, .BEQ, 0, 0, 0⟩

/-- A load with function code `func3`. -/
def load_instr (func3 : Nat) : Instr :=
  ⟨⟨false, false, false, true, true, false, false⟩, .ADD, .NONE, func3, 0, 0⟩

/-- Constants with the console window at 0xFF000000 and the standard
RISC-V numbers of the CSRs. -/
def sample_consts : Consts :=
  { IO_COUT_ADDR := 4278190080, IO_COUT_SIZE := 64,
    VX_CSR_MHARTID := 3860, VX_CSR_SATP := 384, VX_CSR_PMPCFG0 := 928,
    VX_CSR_PMPADDR0 := 944, VX_CSR_MSTATUS := 768, VX_CSR_MISA := 769,
    VX_CSR_MEDELEG := 770, VX_CSR_MIDELEG := 771, VX_CSR_MIE := 772,
    VX_CSR_MTVEC := 773, VX_CSR_MEPC := 833, VX_CSR_MNSTATUS := 1860,
    VX_CSR_MCYCLE := 2816, VX_CSR_MCYCLE_H := 2944,
    VX_CSR_MINSTRET := 2818, VX_CSR_MINSTRET_H := 2946 }

/-- A CSR-class instruction addressing the CSR `imm`. -/
def csr_instr (imm : Nat) : Instr :=
  ⟨⟨false, false, false, false, false, false, true⟩, .ADD, .NONE, 1, imm, 0⟩

/-- The least `w` at or above `from_w` with `n ≤ 2 ^ w`, searched for `fuel`
steps. -/
def least_width (n : Nat) : Nat → Nat → Nat
  | 0, from_w => from_w
  | fuel + 1, from_w => if n ≤ 2 ^ from_w then from_w else least_width n fuel (from_w + 1)

/-- A ceiling of the binary logarithm, standing in for `log2ceil`. -/
def sample_log2ceil (n : Nat) : Nat := least_width n 32 0

/-- The predictor `GShare(4, 2)` right after construction. -/
def sample_gshare : GShare :=
  { BTB_ := [⟨false, 0, 0⟩, ⟨false, 0, 0⟩, ⟨false, 0, 0⟩, ⟨false, 0, 0⟩],
    BHT_ := [0, 0, 0, 0], BHR_ := 0, BTB_shift_ := 2, BTB_mask_ := 3, BHR_mask_ := 3 }

/-- A predictor with every counter at 3 and a valid entry for the PC 0x10. -/
def trained_gshare : GShare :=
  { BTB_ := [⟨true, 1, 64⟩, ⟨false, 0, 0⟩, ⟨false, 0, 0⟩, ⟨false, 0, 0⟩],
    BHT_ := [3, 3, 3, 3], BHR_ := 0, BTB_shift_ := 2, BTB_mask_ := 3, BHR_mask_ := 3 }

/-- The predictor `GShare(4, 2)` after two taken updates: the history is 3. -/
def history3_gshare : GShare :=
  { BTB_ := [⟨false, 0, 0⟩, ⟨false, 0, 0⟩, ⟨false, 0, 0⟩, ⟨false, 0, 0⟩],
    BHT_ := [0, 0, 0, 0], BHR_ := 3, BTB_shift_ := 2, BTB_mask_ := 3, BHR_mask_ := 3 }

/-! ## Arithmetic lemmas -/

theorem and_mask_even (x : Nat) (h : x < 4294967296) : x &&& 4294967294 = x - x % 2 := by
  have h2 : x - x % 2 = 2 * (x / 2) := by omega
  rw [h2]
  apply Nat.eq_of_testBit_eq
  intro i
  rw [Nat.testBit_and]
  have hm : (4294967294 : Nat) = 2 * (2 ^ 31 - 1) := by norm_num
  rw [hm]
  cases i with
  | zero => simp [Nat.testBit_zero]
  | succ j =>
    simp only [Nat.testBit_succ]
    have e1 : 2 * (2 ^ 31 - 1) / 2 = 2 ^ 31 - 1 := by norm_num
    have e2 : 2 * (x / 2) / 2 = x / 2 := by omega
    rw [e1, e2, Nat.testBit_two_pow_sub_one]
    by_cases hj : j < 31
    · simp [hj, Nat.testBit_succ]
    · simp only [hj, decide_False, Bool.and_false]
      symm
      apply Nat.testBit_eq_false_of_lt
      have : 2 ^ 31 ≤ 2 ^ j := Nat.pow_le_pow_right (by norm_num) (by omega)
      omega

theorem xor_ones (x : Nat) (h : x < 4294967296) : x ^^^ 4294967295 = 4294967295 - x := by
  have e : 4294967295 - x = 2 ^ 32 - (x + 1) := by omega
  rw [e]
  apply Nat.eq_of_testBit_eq
  intro i
  rw [Nat.testBit_xor, Nat.testBit_two_pow_sub_succ (by omega)]
  have hm : (4294967295 : Nat) = 2 ^ 32 - 1 := by norm_num
  rw [hm, Nat.testBit_two_pow_sub_one]
  by_cases hi : i < 32
  · simp [hi]
  · have : x.testBit i = false := by
      apply Nat.testBit_eq_false_of_lt
      have : 2 ^ 32 ≤ 2 ^ i := Nat.pow_le_pow_right (by norm_num) (by omega)
      omega
    simp [hi, this]

/-- C1: with the operands selected as the 32-bit values `a` and `b`,
`alu_unit` returns `(a + b) mod 2^32` for ADD, `(a - b) mod 2^32` for SUB and
the bitwise and, or, xor of `a` and `b` for AND, OR, XOR; ADD on 0xFFFFFFFF
and 0x00000002 returns 0x00000001. -/
theorem alu_unit_add_sub_logic (a b : Nat) (ha : a < 4294967296) (hb : b < 4294967296)
    (instr : Instr) (rs1_data rs2_data PC : Nat)
    (h1 : alu_s1 instr rs1_data PC = a) (h2 : alu_s2 instr rs2_data = b) :
    (instr.getAluOp = .ADD →
        alu_unit instr rs1_data rs2_data PC = .ok ((a + b) % 4294967296)) ∧
    (instr.getAluOp = .SUB →
        alu_unit instr rs1_data rs2_data PC = .ok ((((a : Int) - (b : Int)) % 4294967296).toNat)) ∧
    (instr.getAluOp = .AND → alu_unit instr rs1_data rs2_data PC = .ok (a &&& b)) ∧
    (instr.getAluOp = .OR → alu_unit instr rs1_data rs2_data PC = .ok (a ||| b)) ∧
    (instr.getAluOp = .XOR → alu_unit instr rs1_data rs2_data PC = .ok (a ^^^ b)) ∧
    (instr.getAluOp = .ADD → a = 4294967295 → b = 2 →
        alu_unit instr rs1_data rs2_data PC = .ok 1) := by
  refine ⟨?_, ?_, ?_, ?_, ?_, ?_⟩
  · intro h; simp [alu_unit, alu_exec, h, h1, h2]
  · intro h
    simp only [alu_unit, alu_exec, h, h1, h2]
    congr 1
    omega
  · intro h; simp [alu_unit, alu_exec, h, h1, h2]
  · intro h; simp [alu_unit, alu_exec, h, h1, h2]
  · intro h; simp [alu_unit, alu_exec, h, h1, h2]
  · intro h ha2 hb2; subst ha2; subst hb2; simp [alu_unit, alu_exec, h, h1, h2]

/-- Witness for C1: ADD with both operands taken from the registers. -/
theorem alu_unit_add_sub_logic_witness :
    alu_unit ⟨⟨false, false, false, false, false, false, false⟩, .ADD, .NONE, 0, 0, 0⟩
      4294967295 2 0 = .ok 1 :=
  (alu_unit_add_sub_logic 4294967295 2 (by decide) (by decide)
    ⟨⟨false, false, false, false, false, false, false⟩, .ADD, .NONE, 0, 0, 0⟩
    4294967295 2 0 (by decide) (by decide)).2.2.2.2.2 rfl rfl rfl

/-- C2 as stated fails: with `alu_s1_rs1` set and neither the select-PC nor
the invert flag, the first operand is the rs1 register index 5, not the
register value 7, and ADD with a zero second operand returns 5. -/
theorem alu_operand1_not_rs1_data :
    ¬ (∀ (instr : Instr) (rs1_data rs2_data PC : Nat),
        alu_unit instr rs1_data rs2_data PC =
          alu_exec instr.getAluOp
            (if instr.getExeFlags.alu_s1_inv
              then (if instr.getExeFlags.alu_s1_PC then PC else rs1_data) ^^^ 4294967295
              else (if instr.getExeFlags.alu_s1_PC then PC else rs1_data))
            (if instr.getExeFlags.alu_s2_imm then instr.getImm else rs2_data)) ∧
    alu_s1 ⟨⟨false, true, false, false, false, false, false⟩, .ADD, .NONE, 0, 0, 5⟩ 7 0 = 5 ∧
    alu_unit ⟨⟨false, true, false, false, false, false, false⟩, .ADD, .NONE, 0, 0, 5⟩ 7 0 0
      = .ok 5 := by
  refine ⟨?_, by decide, by decide⟩
  intro h
  have h5 := h ⟨⟨false, true, false, false, false, false, false⟩, .ADD, .NONE, 0, 0, 5⟩ 7 0 0
  revert h5
  decide

/-- C2, amended: the first operand of `alu_unit` is PC under the select-PC
flag, otherwise the rs1 register index under `alu_s1_rs1`, otherwise
rs1_data, and under the invert flag its 32-bit complement (all ones minus the
value, equally the exclusive or with all ones); the second operand is the
immediate under the select-immediate flag and rs2_data otherwise. -/
theorem alu_unit_operands (instr : Instr) (rs1_data rs2_data PC : Nat)
    (hPC : PC < 4294967296) (hrs1 : rs1_data < 4294967296)
    (hidx : instr.getRs1 < 4294967296) :
    alu_unit instr rs1_data rs2_data PC =
      alu_exec instr.getAluOp
        (if instr.getExeFlags.alu_s1_inv
          then 4294967295 - (if instr.getExeFlags.alu_s1_PC then PC
            else if instr.getExeFlags.alu_s1_rs1 then instr.getRs1 else rs1_data)
          else (if instr.getExeFlags.alu_s1_PC then PC
            else if instr.getExeFlags.alu_s1_rs1 then instr.getRs1 else rs1_data))
        (if instr.getExeFlags.alu_s2_imm then instr.getImm else rs2_data) ∧
    4294967295 - (if instr.getExeFlags.alu_s1_PC then PC
        else if instr.getExeFlags.alu_s1_rs1 then instr.getRs1 else rs1_data) =
      (if instr.getExeFlags.alu_s1_PC then PC
        else if instr.getExeFlags.alu_s1_rs1 then instr.getRs1 else rs1_data) ^^^ 4294967295 := by
  have hs : (if instr.getExeFlags.alu_s1_PC then PC
      else if instr.getExeFlags.alu_s1_rs1 then instr.getRs1 else rs1_data) < 4294967296 := by
    split
    · exact hPC
    · split
      · exact hidx
      · exact hrs1
  have hx := xor_ones _ hs
  refine ⟨?_, hx.symm⟩
  unfold alu_unit alu_s1 alu_s2
  simp only [hx]

/-- Witness for C2 (amended): SUB of the complemented PC and the immediate. -/
theorem alu_unit_operands_witness :
    alu_unit ⟨⟨true, false, true, true, false, false, false⟩, .SUB, .NONE, 0, 3, 9⟩ 7 8 16 =
      alu_exec .SUB (4294967295 - 16) 3 :=
  (alu_unit_operands ⟨⟨true, false, true, true, false, false, false⟩, .SUB, .NONE, 0, 3, 9⟩
    7 8 16 (by decide) (by decide) (by decide)).1

/-- C3: with the operands selected as the 32-bit values `a` and `b`,
`alu_unit` returns bits 63:32 of the exact integer product, where MULH reads
both operands as signed, MULHSU reads `a` as signed and `b` as unsigned and
MULHU reads both as unsigned; MULH on 0xFFFFFFFF and 0x00000002 returns
0xFFFFFFFF and MULHU on the same operands returns 0x00000001. -/
theorem alu_unit_mulh (a b : Nat) (ha : a < 4294967296) (hb : b < 4294967296)
    (instr : Instr) (rs1_data rs2_data PC : Nat)
    (h1 : alu_s1 instr rs1_data PC = a) (h2 : alu_s2 instr rs2_data = b) :
    (instr.getAluOp = .MULH →
        alu_unit instr rs1_data rs2_data PC =
          .ok (((to_int32 a * to_int32 b) % 18446744073709551616 / 4294967296).toNat)) ∧
    (instr.getAluOp = .MULHSU →
        alu_unit instr rs1_data rs2_data PC =
          .ok (((to_int32 a * (b : Int)) % 18446744073709551616 / 4294967296).toNat)) ∧
    (instr.getAluOp = .MULHU →
        alu_unit instr rs1_data rs2_data PC =
          .ok ((((a : Int) * (b : Int)) % 18446744073709551616 / 4294967296).toNat)) ∧
    (instr.getAluOp = .MULH → a = 4294967295 → b = 2 →
        alu_unit instr rs1_data rs2_data PC = .ok 4294967295) ∧
    (instr.getAluOp = .MULHU → a = 4294967295 → b = 2 →
        alu_unit instr rs1_data rs2_data PC = .ok 1) := by
  refine ⟨?_, ?_, ?_, ?_, ?_⟩
  · intro h
    simp only [alu_unit, alu_exec, h, h1, h2, to_uint32, Int.shiftRight_eq_div_pow]
    congr 2
    generalize to_int32 a * to_int32 b = p
    norm_num
    omega
  · intro h
    simp only [alu_unit, alu_exec, h, h1, h2, to_uint32, to_uint64, to_int64,
      Int.shiftRight_eq_div_pow]
    congr 2
    have hm : (((to_int32 a % 18446744073709551616).toNat * b % 18446744073709551616 : Nat) : Int)
        = (to_int32 a * (b : Int)) % 18446744073709551616 := by
      have h0 : (0 : Int) ≤ to_int32 a % 18446744073709551616 :=
        Int.emod_nonneg _ (by norm_num)
      push_cast
      rw [Int.toNat_of_nonneg h0, Int.mul_emod, Int.emod_emod_of_dvd _ (dvd_refl _), ← Int.mul_emod]
    generalize hq : (to_int32 a % 18446744073709551616).toNat * b % 18446744073709551616 = q at hm
    generalize to_int32 a * (b : Int) = p at hm
    norm_num
    split <;> omega
  · intro h
    simp only [alu_unit, alu_exec, h, h1, h2, Nat.shiftRight_eq_div_pow]
    congr 1
    have hp : a * b < 18446744073709551616 := by
      have : a * b ≤ 4294967295 * 4294967295 := Nat.mul_le_mul (by omega) (by omega)
      omega
    have hc : ((a : Int) * (b : Int)) = ((a * b : Nat) : Int) := by push_cast; rfl
    rw [hc]
    generalize a * b = n at hp
    omega
  · intro h ha2 hb2; subst ha2; subst hb2
    simp only [alu_unit, h, h1, h2]; decide
  · intro h ha2 hb2; subst ha2; subst hb2
    simp only [alu_unit, h, h1, h2]; decide

/-- Witness for C3: MULHSU of -1 (signed) and 0xFFFFFFFF (unsigned). -/
theorem alu_unit_mulh_witness :
    alu_unit ⟨⟨false, false, false, false, false, false, false⟩, .MULHSU, .NONE, 0, 0, 0⟩
      4294967295 4294967295 0 =
      .ok (((to_int32 4294967295 * (4294967295 : Int)) % 18446744073709551616
        / 4294967296).toNat) :=
  (alu_unit_mulh 4294967295 4294967295 (by decide) (by decide)
    ⟨⟨false, false, false, false, false, false, false⟩, .MULHSU, .NONE, 0, 0, 0⟩
    4294967295 4294967295 0 (by decide) (by decide)).2.1 rfl

/-- C4: with the operands selected as the 32-bit values `a` and `b`,
`alu_unit` returns 1 for LTI exactly when `a < b` as signed 32-bit integers
and 0 otherwise, and 1 for LTU exactly when `a < b` as unsigned integers and
0 otherwise; LTI on 0x80000000 and 0x00000001 returns 1, LTU returns 0. -/
theorem alu_unit_lti_ltu (a b : Nat) (ha : a < 4294967296) (hb : b < 4294967296)
    (instr : Instr) (rs1_data rs2_data PC : Nat)
    (h1 : alu_s1 instr rs1_data PC = a) (h2 : alu_s2 instr rs2_data = b) :
    (instr.getAluOp = .LTI →
        (to_int32 a < to_int32 b → alu_unit instr rs1_data rs2_data PC = .ok 1) ∧
        (¬ to_int32 a < to_int32 b → alu_unit instr rs1_data rs2_data PC = .ok 0)) ∧
    (instr.getAluOp = .LTU →
        (a < b → alu_unit instr rs1_data rs2_data PC = .ok 1) ∧
        (¬ a < b → alu_unit instr rs1_data rs2_data PC = .ok 0)) ∧
    (instr.getAluOp = .LTI → a = 2147483648 → b = 1 →
        alu_unit instr rs1_data rs2_data PC = .ok 1) ∧
    (instr.getAluOp = .LTU → a = 2147483648 → b = 1 →
        alu_unit instr rs1_data rs2_data PC = .ok 0) := by
  refine ⟨?_, ?_, ?_, ?_⟩
  · intro h
    constructor <;> intro hlt <;> simp [alu_unit, alu_exec, h, h1, h2, hlt]
  · intro h
    constructor <;> intro hlt <;> simp [alu_unit, alu_exec, h, h1, h2, hlt]
  · intro h ha2 hb2; subst ha2; subst hb2
    simp only [alu_unit, h, h1, h2]; decide
  · intro h ha2 hb2; subst ha2; subst hb2
    simp only [alu_unit, h, h1, h2]; decide

/-- Witness for C4: LTI on 0x80000000 and 0x00000001. -/
theorem alu_unit_lti_ltu_witness :
    alu_unit ⟨⟨false, false, false, false, false, false, false⟩, .LTI, .NONE, 0, 0, 0⟩
      2147483648 1 0 = .ok 1 :=
  (alu_unit_lti_ltu 2147483648 1 (by decide) (by decide)
    ⟨⟨false, false, false, false, false, false, false⟩, .LTI, .NONE, 0, 0, 0⟩
    2147483648 1 0 (by decide) (by decide)).2.2.1 rfl rfl rfl

/-- For a shift count below 32, where `b mod 32 = b`, `alu_unit` returns the
logical left shift, the logical right shift and the arithmetic right shift
of `a` by `b mod 32` positions. -/
theorem alu_unit_shift_below_32 (a b : Nat) (hb : b < 32)
    (instr : Instr) (rs1_data rs2_data PC : Nat)
    (h1 : alu_s1 instr rs1_data PC = a) (h2 : alu_s2 instr rs2_data = b) :
    (instr.getAluOp = .SLL →
        alu_unit instr rs1_data rs2_data PC = .ok (a * 2 ^ (b % 32) % 4294967296)) ∧
    (instr.getAluOp = .SRL →
        alu_unit instr rs1_data rs2_data PC = .ok (a / 2 ^ (b % 32))) ∧
    (instr.getAluOp = .SRA →
        alu_unit instr rs1_data rs2_data PC =
          .ok ((to_int32 a / 2 ^ (b % 32) % 4294967296).toNat)) := by
  have hm : b % 32 = b := Nat.mod_eq_of_lt hb
  refine ⟨?_, ?_, ?_⟩
  · intro h
    simp [alu_unit, alu_exec, h, h1, h2, hb, hm, Nat.shiftLeft_eq]
  · intro h
    simp [alu_unit, alu_exec, h, h1, h2, hb, hm, Nat.shiftRight_eq_div_pow]
  · intro h
    simp [alu_unit, alu_exec, h, h1, h2, hb, hm, to_uint32, Int.shiftRight_eq_div_pow]

/-- Witness for the in-range shifts: SRA of 0x80000000 by 4. -/
theorem alu_unit_shift_below_32_witness :
    alu_unit ⟨⟨false, false, false, false, false, false, false⟩, .SRA, .NONE, 0, 0, 0⟩
      2147483648 4 0 = .ok ((to_int32 2147483648 / 2 ^ (4 % 32) % 4294967296).toNat) :=
  (alu_unit_shift_below_32 2147483648 4 (by decide)
    ⟨⟨false, false, false, false, false, false, false⟩, .SRA, .NONE, 0, 0, 0⟩
    2147483648 4 0 (by decide) (by decide)).2.2 rfl

/-- C5 at the operands 1 and 32: the shift count is not reduced modulo 32
before `alu_s1 << alu_s2`, `alu_s1 >> alu_s2` and `(int32_t)alu_s1 >> alu_s2`
are evaluated, so a count of 32 on a 32-bit operand is left undefined; the
value 1 shifted by `32 mod 32 = 0` positions is not returned. -/
theorem alu_unit_shift_count_32 :
    alu_unit ⟨⟨false, false, false, false, false, false, false⟩, .SLL, .NONE, 0, 0, 0⟩
      1 32 0 = .undefined ∧
    alu_unit ⟨⟨false, false, false, false, false, false, false⟩, .SRL, .NONE, 0, 0, 0⟩
      1 32 0 = .undefined ∧
    alu_unit ⟨⟨false, false, false, false, false, false, false⟩, .SRA, .NONE, 0, 0, 0⟩
      1 32 0 = .undefined ∧
    alu_unit ⟨⟨false, false, false, false, false, false, false⟩, .SLL, .NONE, 0, 0, 0⟩
      1 32 0 ≠ .ok (1 * 2 ^ (32 % 32) % 4294967296) := by
  decide

/-- C6: the taken outcome of `branch_unit` is true for JAL and JALR,
`rs1 = rs2` for BEQ, `rs1 ≠ rs2` for BNE, signed `<` and `≥` for BLT and BGE,
unsigned `<` and `≥` for BLTU and BGEU, false for NONE; BGE is the negation
of BLT and BGEU the negation of BLTU on every input. -/
theorem br_taken_table (rs1_data rs2_data : Nat) :
    br_taken .JAL rs1_data rs2_data = .ok true ∧
    br_taken .JALR rs1_data rs2_data = .ok true ∧
    br_taken .BEQ rs1_data rs2_data = .ok (decide (rs1_data = rs2_data)) ∧
    br_taken .BNE rs1_data rs2_data = .ok (decide (rs1_data ≠ rs2_data)) ∧
    br_taken .BLT rs1_data rs2_data = .ok (decide (to_int32 rs1_data < to_int32 rs2_data)) ∧
    br_taken .BGE rs1_data rs2_data = .ok (decide (to_int32 rs2_data ≤ to_int32 rs1_data)) ∧
    br_taken .BLTU rs1_data rs2_data = .ok (decide (rs1_data < rs2_data)) ∧
    br_taken .BGEU rs1_data rs2_data = .ok (decide (rs2_data ≤ rs1_data)) ∧
    br_taken .NONE rs1_data rs2_data = .ok false ∧
    (∃ t, br_taken .BLT rs1_data rs2_data = .ok t ∧
        br_taken .BGE rs1_data rs2_data = .ok (!t)) ∧
    (∃ t, br_taken .BLTU rs1_data rs2_data = .ok t ∧
        br_taken .BGEU rs1_data rs2_data = .ok (!t)) := by
  refine ⟨rfl, rfl, rfl, rfl, rfl, rfl, rfl, rfl, rfl, ?_, ?_⟩
  · refine ⟨_, rfl, ?_⟩
    simp only [br_taken, ge_iff_le]
    congr 1
    by_cases h : to_int32 rs1_data < to_int32 rs2_data
    · simp [h]
    · simp [h, not_lt.mp h]
  · refine ⟨_, rfl, ?_⟩
    simp only [br_taken, ge_iff_le]
    congr 1
    by_cases h : rs1_data < rs2_data
    · simp [h]
    · simp [h, not_lt.mp h]

/-- C7: on JAL and JALR `branch_unit` returns `(PC + 4) mod 2^32` as the
destination value whatever the ALU result is; for JALR the redirect goes to
the ALU result with bit 0 cleared; for NONE and every conditional branch the
incoming ALU result is returned unchanged. -/
theorem branch_unit_link {Reg : Type} (reset : Reg → Reg) (core : Core Reg) (instr : Instr)
    (rs1_data rs2_data rd_data PC : Nat) (hrd : rd_data < 4294967296) :
    (instr.getBrOp = .JAL ∨ instr.getBrOp = .JALR →
        ∃ r, branch_unit reset core instr rs1_data rs2_data rd_data PC = .ok r ∧
          r.rd_data = (PC + 4) % 4294967296) ∧
    (instr.getBrOp = .JALR →
        ∃ r, branch_unit reset core instr rs1_data rs2_data rd_data PC = .ok r ∧
          (rd_data - rd_data % 2 ≠ (PC + 4) % 4294967296 →
            r.core.PC_ = rd_data - rd_data % 2) ∧
          (rd_data - rd_data % 2 = (PC + 4) % 4294967296 → r.core = core)) ∧
    (instr.getBrOp = .NONE ∨ instr.getBrOp = .BEQ ∨ instr.getBrOp = .BNE
        ∨ instr.getBrOp = .BLT ∨ instr.getBrOp = .BGE ∨ instr.getBrOp = .BLTU
        ∨ instr.getBrOp = .BGEU →
        ∃ r, branch_unit reset core instr rs1_data rs2_data rd_data PC = .ok r ∧
          r.rd_data = rd_data) := by
  have hmask := and_mask_even rd_data hrd
  refine ⟨?_, ?_, ?_⟩
  · rintro (h | h)
    · simp [branch_unit, br_taken, br_target, h]
    · simp only [branch_unit, br_taken, br_target, h]
      split_ifs <;> simp_all
  · intro h
    simp only [branch_unit, br_taken, br_target, h, hmask]
    by_cases ht : rd_data - rd_data % 2 = (PC + 4) % 4294967296
    · simp [ht]
    · simp [ht, flush]
  · rintro (h | h | h | h | h | h | h) <;>
      simp only [branch_unit, br_taken, br_target, h] <;>
      split_ifs <;> simp_all

/-- Witness for C7: JALR at PC 0x1000 with ALU result 0x2001. -/
theorem branch_unit_link_witness :
    ∃ r, branch_unit (fun _ => false) (⟨0, true, true, ⟨0, 0⟩⟩ : Core Bool)
        ⟨⟨false, false, false, false, false, false, false⟩, .ADD, .JALR, 0, 0, 0⟩
        0 0 8193 4096 = .ok r ∧
      (8193 - 8193 % 2 ≠ (4096 + 4) % 4294967296 → r.core.PC_ = 8193 - 8193 % 2) ∧
      (8193 - 8193 % 2 = (4096 + 4) % 4294967296 → r.core = ⟨0, true, true, ⟨0, 0⟩⟩) :=
  (branch_unit_link (fun _ => false) (⟨0, true, true, ⟨0, 0⟩⟩ : Core Bool)
    ⟨⟨false, false, false, false, false, false, false⟩, .ADD, .JALR, 0, 0, 0⟩
    0 0 8193 4096 (by decide)).2.1 rfl

/-- C8: `branch_unit` redirects exactly when the op is a conditional branch
or JALR, the branch is taken and the resolved target (bit 0 cleared for JALR)
differs from `PC + 4`; then the architectural PC is the resolved target, the
fetch/decode register is reset and the fetch stall is cleared; in every other
case these three are unchanged. -/
theorem branch_unit_redirect {Reg : Type} (reset : Reg → Reg) (core : Core Reg)
    (instr : Instr) (rs1_data rs2_data rd_data PC : Nat) (hrd : rd_data < 4294967296)
    (hop : ∀ c, instr.getBrOp ≠ .other c) :
    ∃ r taken, branch_unit reset core instr rs1_data rs2_data rd_data PC = .ok r ∧
      br_taken instr.getBrOp rs1_data rs2_data = .ok taken ∧
      (((instr.getBrOp = .BEQ ∨ instr.getBrOp = .BNE ∨ instr.getBrOp = .BLT
            ∨ instr.getBrOp = .BGE ∨ instr.getBrOp = .BLTU ∨ instr.getBrOp = .BGEU
            ∨ instr.getBrOp = .JALR) ∧ taken = true ∧
          (if instr.getBrOp = .JALR then rd_data - rd_data % 2 else rd_data)
            ≠ (PC + 4) % 4294967296) →
        r.core.PC_ = (if instr.getBrOp = .JALR then rd_data - rd_data % 2 else rd_data) ∧
        r.core.if_id_ = reset core.if_id_ ∧ r.core.fetch_stalled_ = false) ∧
      (¬ ((instr.getBrOp = .BEQ ∨ instr.getBrOp = .BNE ∨ instr.getBrOp = .BLT
            ∨ instr.getBrOp = .BGE ∨ instr.getBrOp = .BLTU ∨ instr.getBrOp = .BGEU
            ∨ instr.getBrOp = .JALR) ∧ taken = true ∧
          (if instr.getBrOp = .JALR then rd_data - rd_data % 2 else rd_data)
            ≠ (PC + 4) % 4294967296) →
        r.core.PC_ = core.PC_ ∧ r.core.if_id_ = core.if_id_ ∧
        r.core.fetch_stalled_ = core.fetch_stalled_) := by
  have hmask := and_mask_even rd_data hrd
  cases hb : instr.getBrOp with
  | other c => exact absurd hb (hop c)
  | NONE => simp [branch_unit, br_taken, hb]
  | JAL => simp [branch_unit, br_taken, br_target, hb]
  | JALR =>
    simp only [branch_unit, br_taken, br_target, hb, hmask]
    by_cases ht : rd_data - rd_data % 2 = (PC + 4) % 4294967296
    · simp [ht]
    · simp [ht, flush]
  | BEQ =>
    simp only [branch_unit, br_taken, br_target, hb]
    by_cases hc : rs1_data = rs2_data <;>
      by_cases ht : rd_data = (PC + 4) % 4294967296 <;> simp [hc, ht, flush]
  | BNE =>
    simp only [branch_unit, br_taken, br_target, hb]
    by_cases hc : rs1_data = rs2_data <;>
      by_cases ht : rd_data = (PC + 4) % 4294967296 <;> simp [hc, ht, flush]
  | BLT =>
    simp only [branch_unit, br_taken, br_target, hb]
    by_cases hc : to_int32 rs1_data < to_int32 rs2_data <;>
      by_cases ht : rd_data = (PC + 4) % 4294967296 <;> simp [hc, ht, flush]
  | BGE =>
    simp only [branch_unit, br_taken, br_target, hb]
    by_cases hc : to_int32 rs1_data ≥ to_int32 rs2_data <;>
      by_cases ht : rd_data = (PC + 4) % 4294967296 <;> simp [hc, ht, flush]
  | BLTU =>
    simp only [branch_unit, br_taken, br_target, hb]
    by_cases hc : rs1_data < rs2_data <;>
      by_cases ht : rd_data = (PC + 4) % 4294967296 <;> simp [hc, ht, flush]
  | BGEU =>
    simp only [branch_unit, br_taken, br_target, hb]
    by_cases hc : rs1_data ≥ rs2_data <;>
      by_cases ht : rd_data = (PC + 4) % 4294967296 <;> simp [hc, ht, flush]

/-- Witness for C8: BEQ at PC 0x1000 with equal registers and target 0x2000. -/
theorem branch_unit_redirect_witness :
    ∃ r taken, branch_unit sample_reset sample_core beq_instr 5 5 8192 4096 = .ok r ∧
      br_taken beq_instr.getBrOp 5 5 = .ok taken ∧
      (((beq_instr.getBrOp = .BEQ ∨ beq_instr.getBrOp = .BNE ∨ beq_instr.getBrOp = .BLT
            ∨ beq_instr.getBrOp = .BGE ∨ beq_instr.getBrOp = .BLTU
            ∨ beq_instr.getBrOp = .BGEU ∨ beq_instr.getBrOp = .JALR) ∧ taken = true ∧
          (if beq_instr.getBrOp = .JALR then 8192 - 8192 % 2 else 8192)
            ≠ (4096 + 4) % 4294967296) →
        r.core.PC_ = (if beq_instr.getBrOp = .JALR then 8192 - 8192 % 2 else 8192) ∧
        r.core.if_id_ = sample_reset sample_core.if_id_ ∧ r.core.fetch_stalled_ = false) ∧
      (¬ ((beq_instr.getBrOp = .BEQ ∨ beq_instr.getBrOp = .BNE ∨ beq_instr.getBrOp = .BLT
            ∨ beq_instr.getBrOp = .BGE ∨ beq_instr.getBrOp = .BLTU
            ∨ beq_instr.getBrOp = .BGEU ∨ beq_instr.getBrOp = .JALR) ∧ taken = true ∧
          (if beq_instr.getBrOp = .JALR then 8192 - 8192 % 2 else 8192)
            ≠ (4096 + 4) % 4294967296) →
        r.core.PC_ = sample_core.PC_ ∧ r.core.if_id_ = sample_core.if_id_ ∧
        r.core.fetch_stalled_ = sample_core.fetch_stalled_) :=
  branch_unit_redirect sample_reset sample_core beq_instr 5 5 8192 4096 (by decide)
    (fun c h => by cases h)

/-- C9 as stated fails: BEQ at PC 0x1000 with equal registers and target
0x2000 resolves taken and redirects to 0x2000, but `branch_unit` makes no
call on a predictor, so `update(0x1000, 0x2000, true)` is not among its
calls. -/
theorem branch_unit_beq_no_update :
    branch_unit sample_reset sample_core beq_instr 5 5 8192 4096 =
      .ok ⟨8192, ⟨8192, false, false, ⟨0, 0⟩⟩, []⟩ ∧
    ¬ ∃ r, branch_unit sample_reset sample_core beq_instr 5 5 8192 4096 = .ok r ∧
        r.calls = [Call.bp_update 4096 8192 true] := by
  have h1 : branch_unit sample_reset sample_core beq_instr 5 5 8192 4096 =
      .ok ⟨8192, ⟨8192, false, false, ⟨0, 0⟩⟩, []⟩ := by decide
  refine ⟨h1, ?_⟩
  rintro ⟨r, hr, hc⟩
  rw [h1] at hr
  cases hr
  cases hc

/-- C9, amended: for every branch op that the switch names, `branch_unit`
returns and makes no call on a collaborator, in particular none on a
predictor; BEQ at PC 0x1000 with `rs1 = rs2` and computed target 0x2000
resolves taken and redirects to 0x2000, resetting the fetch/decode register
and clearing the fetch stall. -/
theorem branch_unit_calls {Reg : Type} (reset : Reg → Reg) (core : Core Reg)
    (instr : Instr) (rs1_data rs2_data rd_data PC : Nat)
    (hop : ∀ c, instr.getBrOp ≠ .other c) :
    (∃ r, branch_unit reset core instr rs1_data rs2_data rd_data PC = .ok r ∧
        r.calls = []) ∧
    (instr.getBrOp = .BEQ → rs1_data = rs2_data → PC = 4096 → rd_data = 8192 →
        ∃ r, branch_unit reset core instr rs1_data rs2_data rd_data PC = .ok r ∧
          br_taken instr.getBrOp rs1_data rs2_data = .ok true ∧
          r.rd_data = 8192 ∧ r.core.PC_ = 8192 ∧ r.core.if_id_ = reset core.if_id_ ∧
          r.core.fetch_stalled_ = false ∧ r.core.perf_stats_ = core.perf_stats_ ∧
          r.calls = []) := by
  constructor
  · cases hb : instr.getBrOp with
    | other c => exact absurd hb (hop c)
    | _ =>
      simp only [branch_unit, br_taken, hb]
      split_ifs <;> simp
  · intro hb h12 hPC hrd
    subst h12 hPC hrd
    simp [branch_unit, br_taken, br_target, flush, hb]

/-- Witness for C9 (amended): the BEQ of the end-to-end example. -/
theorem branch_unit_calls_witness :
    ∃ r, branch_unit sample_reset sample_core beq_instr 5 5 8192 4096 = .ok r ∧
      br_taken beq_instr.getBrOp 5 5 = .ok true ∧
      r.rd_data = 8192 ∧ r.core.PC_ = 8192 ∧
      r.core.if_id_ = sample_reset sample_core.if_id_ ∧
      r.core.fetch_stalled_ = false ∧ r.core.perf_stats_ = sample_core.perf_stats_ ∧
      r.calls = [] :=
  (branch_unit_calls sample_reset sample_core beq_instr 5 5 8192 4096
    (fun c h => by cases h)).2 rfl rfl rfl rfl

/-- C10: for a load whose memory read leaves the value `v`, zero above the
requested width, in `read_data`, `mem_access` returns the low 8 bits of `v`
sign-extended to 32 bits for func3 = 0 (LB), the low 16 bits sign-extended
for func3 = 1 (LH), and `v` unchanged for func3 = 2, 4, 5 (LW, LBU, LHU);
byte 0xFF gives 0xFFFFFFFF under LB and 0x000000FF under LBU, halfword 0x8000
gives 0xFFFF8000 under LH. -/
theorem mem_access_load {Reg : Type} (k : Consts) (mmu : Nat → Nat → Nat) (core : Core Reg)
    (instr : Instr) (rd_data rs2_data v : Nat)
    (hl : instr.getExeFlags.is_load = true) (hs : instr.getExeFlags.is_store = false)
    (hc : instr.getExeFlags.is_csr = false)
    (hv : (dmem_read mmu rd_data (1 <<< (instr.getFunc3 &&& 3))).1 = v) :
    (instr.getFunc3 = 0 →
        ∃ r, mem_access k mmu core instr rd_data rs2_data = .ok r ∧
          r.rd_data = to_uint32
            (if v % 256 < 128 then ((v % 256 : Nat) : Int) else ((v % 256 : Nat) : Int) - 256)) ∧
    (instr.getFunc3 = 1 →
        ∃ r, mem_access k mmu core instr rd_data rs2_data = .ok r ∧
          r.rd_data = to_uint32
            (if v % 65536 < 32768 then ((v % 65536 : Nat) : Int)
              else ((v % 65536 : Nat) : Int) - 65536)) ∧
    (instr.getFunc3 = 2 ∨ instr.getFunc3 = 4 ∨ instr.getFunc3 = 5 →
        ∃ r, mem_access k mmu core instr rd_data rs2_data = .ok r ∧ r.rd_data = v) ∧
    (instr.getFunc3 = 0 → v = 255 →
        ∃ r, mem_access k mmu core instr rd_data rs2_data = .ok r ∧
          r.rd_data = 4294967295) ∧
    (instr.getFunc3 = 4 → v = 255 →
        ∃ r, mem_access k mmu core instr rd_data rs2_data = .ok r ∧ r.rd_data = 255) ∧
    (instr.getFunc3 = 1 → v = 32768 →
        ∃ r, mem_access k mmu core instr rd_data rs2_data = .ok r ∧
          r.rd_data = 4294934528) := by
  have e0 : (1 : Nat) <<< (0 &&& 3) = 1 := by decide
  have e1 : (1 : Nat) <<< (1 &&& 3) = 2 := by decide
  have lb : instr.getFunc3 = 0 →
      mem_access k mmu core instr rd_data rs2_data =
        .ok ⟨sext v 8, core, [Call.mmu_read rd_data 1]⟩ := by
    intro h
    have hv1 : mmu rd_data 1 % 256 = v := by simpa [dmem_read, h, e0] using hv
    simp [mem_access, mem_load, dmem_read, hl, hs, hc, h, e0, hv1]
  have lh : instr.getFunc3 = 1 →
      mem_access k mmu core instr rd_data rs2_data =
        .ok ⟨sext v 16, core, [Call.mmu_read rd_data 2]⟩ := by
    intro h
    have hv1 : mmu rd_data 2 % 65536 = v := by simpa [dmem_read, h, e1] using hv
    simp [mem_access, mem_load, dmem_read, hl, hs, hc, h, e1, hv1]
  refine ⟨?_, ?_, ?_, ?_, ?_, ?_⟩
  · intro h
    refine ⟨_, lb h, ?_⟩
    simp only [sext, to_uint32]
    norm_num
    split_ifs <;> omega
  · intro h
    refine ⟨_, lh h, ?_⟩
    simp only [sext, to_uint32]
    norm_num
    split_ifs <;> omega
  · rintro (h | h | h) <;> rw [h] at hv <;> simp only [dmem_read] at hv <;>
      simp [mem_access, mem_load, dmem_read, hl, hs, hc, h, hv]
  · intro h hv2
    refine ⟨_, lb h, ?_⟩
    subst hv2
    show sext 255 8 = 4294967295
    decide
  · intro h hv2
    rw [h] at hv
    simp only [dmem_read] at hv
    simp [mem_access, mem_load, dmem_read, hl, hs, hc, h, hv, hv2]
  · intro h hv2
    refine ⟨_, lh h, ?_⟩
    subst hv2
    show sext 32768 16 = 4294934528
    decide

/-- Witness for C10: LB of the byte 0xFF. -/
theorem mem_access_load_witness :
    ∃ r, mem_access sample_consts (fun _ _ => 255) sample_core (load_instr 0) 16 0 = .ok r ∧
      r.rd_data = 4294967295 :=
  (mem_access_load sample_consts (fun _ _ => 255) sample_core (load_instr 0) 16 0 255
    rfl rfl rfl (by decide)).2.2.2.1 rfl rfl

/-- C11: for a CSR-class instruction with previous value `rs2_data` and new
value `rd_data`, `mem_access` returns `rs2_data` whenever it does not fail;
`set_csr(immediate, rd_data)` is called exactly when the two differ, and the
outcome is then the outcome of that call; when they are equal the core is
unchanged and the call succeeds with `rs2_data`. -/
theorem mem_access_csr {Reg : Type} (k : Consts) (mmu : Nat → Nat → Nat) (core : Core Reg)
    (instr : Instr) (rd_data rs2_data : Nat)
    (hl : instr.getExeFlags.is_load = false) (hs : instr.getExeFlags.is_store = false)
    (hc : instr.getExeFlags.is_csr = true) :
    (∀ r, mem_access k mmu core instr rd_data rs2_data = .ok r →
        r.rd_data = rs2_data ∧ r.core = core ∧
        r.calls = (if rd_data ≠ rs2_data then [Call.set_csr instr.getImm rd_data] else [])) ∧
    (rd_data ≠ rs2_data →
        (∀ c, set_csr k core instr.getImm rd_data = .ok c →
          mem_access k mmu core instr rd_data rs2_data =
            .ok ⟨rs2_data, core, [Call.set_csr instr.getImm rd_data]⟩) ∧
        (set_csr k core instr.getImm rd_data = .abort →
          mem_access k mmu core instr rd_data rs2_data = .abort)) ∧
    (mem_access k mmu core instr rd_data rs2_data = .abort →
        rd_data ≠ rs2_data ∧ set_csr k core instr.getImm rd_data = .abort) ∧
    (rd_data = rs2_data →
        mem_access k mmu core instr rd_data rs2_data = .ok ⟨rs2_data, core, []⟩) ∧
    mem_access k mmu core instr rd_data rs2_data ≠ .undefined := by
  by_cases hne : rd_data = rs2_data
  · subst hne
    simp [mem_access, mem_csr, hl, hs, hc]
  · have hne2 : rs2_data ≠ rd_data := fun h => hne h.symm
    by_cases hw : instr.getImm = k.VX_CSR_SATP ∨ instr.getImm = k.VX_CSR_MSTATUS
        ∨ instr.getImm = k.VX_CSR_MEDELEG ∨ instr.getImm = k.VX_CSR_MIDELEG
        ∨ instr.getImm = k.VX_CSR_MIE ∨ instr.getImm = k.VX_CSR_MTVEC
        ∨ instr.getImm = k.VX_CSR_MEPC ∨ instr.getImm = k.VX_CSR_PMPCFG0
        ∨ instr.getImm = k.VX_CSR_PMPADDR0 ∨ instr.getImm = k.VX_CSR_MNSTATUS
    · have hset : set_csr k core instr.getImm rd_data = .ok core := by
        simp only [set_csr, hw, if_true]
      simp [mem_access, mem_csr, hl, hs, hc, hne, hne2, hset]
    · have hset : set_csr k core instr.getImm rd_data = .abort := by
        simp only [set_csr, hw, if_false]
      simp [mem_access, mem_csr, hl, hs, hc, hne, hne2, hset]

/-- Witness for C11: a CSR write of 9 over the previous value 7 at SATP. -/
theorem mem_access_csr_witness :
    mem_access sample_consts (fun _ _ => 0) sample_core (csr_instr 384) 9 7 =
      .ok ⟨7, sample_core, [Call.set_csr (csr_instr 384).getImm 9]⟩ :=
  ((mem_access_csr sample_consts (fun _ _ => 0) sample_core (csr_instr 384) 9 7
    rfl rfl rfl).2.1 (by decide)).1 sample_core (by decide)

/-! ## CSR lemmas -/

theorem and_low_word (x : Nat) : x &&& 4294967295 = x % 4294967296 := by
  have h := Nat.and_pow_two_sub_one_eq_mod x 32
  norm_num at h
  exact h

/-- C12 as stated fails: MHARTID and MISA read as 0 and are no counter words,
but `set_csr` has no `case` label for them and aborts. -/
theorem set_csr_mhartid_misa_abort :
    ¬ (∀ (k : Consts) (core : Core Bool) (addr value : Nat), k.distinct →
        (∃ v, get_csr k core addr = .ok v) → addr ∉ k.counters →
        get_csr k core addr = .ok 0 ∧ set_csr k core addr value = .ok core) ∧
    get_csr sample_consts sample_core sample_consts.VX_CSR_MHARTID = .ok 0 ∧
    set_csr sample_consts sample_core sample_consts.VX_CSR_MHARTID 5 = .abort ∧
    get_csr sample_consts sample_core sample_consts.VX_CSR_MISA = .ok 0 ∧
    set_csr sample_consts sample_core sample_consts.VX_CSR_MISA 5 = .abort := by
  refine ⟨?_, by decide, by decide, by decide, by decide⟩
  intro h
  have h1 := (h sample_consts sample_core sample_consts.VX_CSR_MHARTID 5 (by decide)
    ⟨0, by decide⟩ (by decide)).2
  revert h1
  decide

/-- C12, amended: for every address on which `get_csr` succeeds and which is
no counter word, `get_csr` returns 0; on every such address other than
MHARTID and MISA, `set_csr` succeeds for every value and leaves the core
unchanged; on MHARTID and MISA `set_csr` aborts. -/
theorem csr_inert {Reg : Type} (k : Consts) (hd : k.distinct) (core : Core Reg)
    (addr value : Nat) (hg : ∃ v, get_csr k core addr = .ok v) (hc : addr ∉ k.counters) :
    get_csr k core addr = .ok 0 ∧
    (addr ≠ k.VX_CSR_MHARTID → addr ≠ k.VX_CSR_MISA →
        set_csr k core addr value = .ok core) ∧
    (addr = k.VX_CSR_MHARTID ∨ addr = k.VX_CSR_MISA →
        set_csr k core addr value = .abort) := by
  have hf := hd
  have hr := List.nodup_reverse.mpr hd
  simp only [Consts.distinct, Consts.whitelist, List.nodup_cons, List.mem_cons,
    List.mem_singleton, not_or, List.not_mem_nil, or_false, not_false_eq_true, and_true,
    List.nodup_nil] at hf
  simp only [Consts.whitelist, List.reverse_cons, List.reverse_nil, List.nil_append,
    List.cons_append, List.nodup_cons, List.mem_cons, List.mem_singleton, not_or,
    List.not_mem_nil, or_false, not_false_eq_true, and_true, List.nodup_nil] at hr
  simp only [Consts.counters, List.mem_cons, List.mem_singleton, not_or, List.not_mem_nil,
    or_false] at hc
  obtain ⟨v, hv⟩ := hg
  by_cases h12 : addr = k.VX_CSR_MHARTID ∨ addr = k.VX_CSR_SATP ∨ addr = k.VX_CSR_PMPCFG0
      ∨ addr = k.VX_CSR_PMPADDR0 ∨ addr = k.VX_CSR_MSTATUS ∨ addr = k.VX_CSR_MISA
      ∨ addr = k.VX_CSR_MEDELEG ∨ addr = k.VX_CSR_MIDELEG ∨ addr = k.VX_CSR_MIE
      ∨ addr = k.VX_CSR_MTVEC ∨ addr = k.VX_CSR_MEPC ∨ addr = k.VX_CSR_MNSTATUS
  · refine ⟨by simp only [get_csr, h12, if_true], ?_, ?_⟩
    · intro n1 n2
      rcases h12 with h | h | h | h | h | h | h | h | h | h | h | h
      · exact absurd h n1
      all_goals first
        | exact absurd h n2
        | (subst h; simp [set_csr])
    · rintro (h | h) <;> subst h <;> simp [set_csr, hf, hr]
  · exfalso
    simp only [get_csr, h12, if_false, hc.1, hc.2.1, hc.2.2.1, hc.2.2.2] at hv
    cases hv

/-- Witness for C12 (amended): MSTATUS reads 0 and accepts a write. -/
theorem csr_inert_witness :
    get_csr sample_consts sample_core 768 = .ok 0 ∧
    set_csr sample_consts sample_core 768 5 = .ok sample_core :=
  have h := csr_inert sample_consts (by decide) sample_core 768 5 ⟨0, by decide⟩ (by decide)
  ⟨h.1, h.2.1 (by decide) (by decide)⟩

/-- C13: on every address outside the CSR whitelist both `get_csr` and
`set_csr` abort; `set_csr` aborts on each of the four counter-word addresses,
on which `get_csr` returns the low 32 bits and bits 63:32 of the cycle
counter and of the retired-instruction counter. -/
theorem csr_outside_whitelist {Reg : Type} (k : Consts) (hd : k.distinct) (core : Core Reg)
    (value : Nat) :
    (∀ addr, addr ∉ k.whitelist →
        get_csr k core addr = .abort ∧ set_csr k core addr value = .abort) ∧
    (∀ addr, addr ∈ k.counters → set_csr k core addr value = .abort) ∧
    get_csr k core k.VX_CSR_MCYCLE = .ok (core.perf_stats_.cycles % 4294967296) ∧
    get_csr k core k.VX_CSR_MCYCLE_H =
      .ok (core.perf_stats_.cycles / 4294967296 % 4294967296) ∧
    get_csr k core k.VX_CSR_MINSTRET = .ok (core.perf_stats_.instrs % 4294967296) ∧
    get_csr k core k.VX_CSR_MINSTRET_H =
      .ok (core.perf_stats_.instrs / 4294967296 % 4294967296) := by
  have hf := hd
  have hr := List.nodup_reverse.mpr hd
  simp only [Consts.distinct, Consts.whitelist, List.nodup_cons, List.mem_cons,
    List.mem_singleton, not_or, List.not_mem_nil, or_false, not_false_eq_true, and_true,
    List.nodup_nil] at hf
  simp only [Consts.whitelist, List.reverse_cons, List.reverse_nil, List.nil_append,
    List.cons_append, List.nodup_cons, List.mem_cons, List.mem_singleton, not_or,
    List.not_mem_nil, or_false, not_false_eq_true, and_true, List.nodup_nil] at hr
  have hsh : ∀ x : Nat, x >>> 32 = x / 4294967296 := by
    intro x; simp [Nat.shiftRight_eq_div_pow]
  refine ⟨?_, ?_, ?_, ?_, ?_, ?_⟩
  · intro addr ha
    simp only [Consts.whitelist, List.mem_cons, List.mem_singleton, not_or, List.not_mem_nil,
      or_false] at ha
    constructor
    · simp [get_csr, ha]
    · simp [set_csr, ha]
  · intro addr ha
    simp only [Consts.counters, List.mem_cons, List.mem_singleton, List.not_mem_nil,
      or_false] at ha
    rcases ha with h | h | h | h <;> subst h <;> simp [set_csr, hf, hr]
  · simp [get_csr, hf, hr, and_low_word]
  · simp [get_csr, hf, hr, hsh]
  · simp [get_csr, hf, hr, and_low_word]
  · simp [get_csr, hf, hr, hsh]

/-- Witness for C13: the address 0 is outside the whitelist. -/
theorem csr_outside_whitelist_witness :
    get_csr sample_consts sample_core 0 = .abort ∧
    set_csr sample_consts sample_core 0 5 = .abort :=
  (csr_outside_whitelist sample_consts (by decide) sample_core 5).1 0 (by decide)

theorem set_same {α : Type} (l : List α) (i : Nat) (a : α) (h : l[i]? = some a) :
    l.set i a = l := by
  induction l generalizing i with
  | nil => rfl
  | cons x xs ih =>
    cases i with
    | zero => simp at h; simp [h]
    | succ j => simp at h; simp [ih j h]

theorem inc_two_bit_counter_same (count : Nat) : inc_two_bit_counter count = count := by
  simp [inc_two_bit_counter, post_increment]

theorem dec_two_bit_counter_same (count : Nat) : dec_two_bit_counter count = count := by
  simp [dec_two_bit_counter, post_decrement]

theorem GShare.update_bht_eq (g : GShare) (PC : Nat) (taken : Bool) :
    g.update_bht PC taken =
      if ((PC >>> 2) ^^^ g.BHR_) &&& g.BHR_mask_ < g.BHT_.length then .ok g else .undefined := by
  unfold GShare.update_bht
  by_cases h : ((PC >>> 2) ^^^ g.BHR_) &&& g.BHR_mask_ < g.BHT_.length
  · have hs := List.getElem?_eq_getElem h
    simp only [hs, h, if_true, inc_two_bit_counter_same, dec_two_bit_counter_same,
      set_same _ _ _ hs]
    cases taken <;> rfl
  · have hn : g.BHT_[((PC >>> 2) ^^^ g.BHR_) &&& g.BHR_mask_]? = none :=
      List.getElem?_eq_none (by omega)
    simp only [hn, h, if_false]

theorem GShare.update_btb_eq (g : GShare) (PC next_PC : Nat) :
    g.update_btb PC next_PC =
      if (PC >>> 2) ^^^ g.BHR_ < g.BTB_.length ∧ g.BTB_shift_ + 2 < 32 then .ok g
      else .undefined := by
  unfold GShare.update_btb
  by_cases h : (PC >>> 2) ^^^ g.BHR_ < g.BTB_.length
  · have hs := List.getElem?_eq_getElem h
    simp only [hs, h, true_and]
  · have hn : g.BTB_[(PC >>> 2) ^^^ g.BHR_]? = none := List.getElem?_eq_none (by omega)
    simp only [hn, h, false_and, if_false]

theorem GShare.update_eq (g : GShare) (PC next_PC : Nat) (taken : Bool) :
    g.update PC next_PC taken =
      if ((PC >>> 2) ^^^ g.BHR_) &&& g.BHR_mask_ < g.BHT_.length ∧
          (taken = true → (PC >>> 2) ^^^ g.BHR_ < g.BTB_.length ∧ g.BTB_shift_ + 2 < 32)
      then .ok (g.update_bhr taken) else .undefined := by
  unfold GShare.update
  rw [GShare.update_bht_eq]
  by_cases h : ((PC >>> 2) ^^^ g.BHR_) &&& g.BHR_mask_ < g.BHT_.length
  · cases taken
    · simp [h]
    · simp only [h, if_true, GShare.update_btb_eq, true_and, forall_const]
      split_ifs <;> rfl
  · simp [h]

theorem GShare.predict_state (g g1 : GShare) (PC v : Nat) (h : g.predict PC = .ok (v, g1)) :
    g1 = g := by
  unfold GShare.predict at h
  cases h1 : g.BHT_[((PC >>> 2) ^^^ g.BHR_) &&& g.BHR_mask_]? with
  | none => simp [h1] at h
  | some count =>
    simp only [h1] at h
    by_cases hc : count ≥ 2
    · by_cases hs : g.BTB_shift_ + 2 < 32
      · cases h2 : g.BTB_[(PC >>> 2) &&& g.BTB_mask_]? with
        | none => simp [hc, hs, h2] at h
        | some row =>
          simp only [hc, hs, h2, decide_True, if_true] at h
          split_ifs at h <;> simp at h <;> exact h.2.symm
      · simp [hc, hs] at h
    · simp [hc] at h
      exact h.2.symm

/-- C15: in a predictor whose tables cover their masks, `predict(pc)` returns
the stored target of the BTB entry at index `(pc >> 2) & BTB_mask_` when
`BHT_[((pc >> 2) ^ BHR_) & BHR_mask_] >= 2` and that entry is valid with tag
`pc >> (BTB_shift_ + 2)`; in every other case it returns `(pc + 4) mod 2^32`;
the predictor is left as it was. -/
theorem predict_spec (g : GShare) (PC : Nat)
    (hbht : g.BHR_mask_ < g.BHT_.length) (hbtb : g.BTB_mask_ < g.BTB_.length)
    (hsh : g.BTB_shift_ + 2 < 32) :
    ∃ count row, g.BHT_[((PC >>> 2) ^^^ g.BHR_) &&& g.BHR_mask_]? = some count ∧
      g.BTB_[(PC >>> 2) &&& g.BTB_mask_]? = some row ∧
      (count ≥ 2 ∧ row.valid = true ∧ row.tag = PC >>> (g.BTB_shift_ + 2) →
        g.predict PC = .ok (row.target, g)) ∧
      (¬ (count ≥ 2 ∧ row.valid = true ∧ row.tag = PC >>> (g.BTB_shift_ + 2)) →
        g.predict PC = .ok ((PC + 4) % 4294967296, g)) := by
  have h1 : ((PC >>> 2) ^^^ g.BHR_) &&& g.BHR_mask_ < g.BHT_.length :=
    Nat.lt_of_le_of_lt Nat.and_le_right hbht
  have h2 : (PC >>> 2) &&& g.BTB_mask_ < g.BTB_.length :=
    Nat.lt_of_le_of_lt Nat.and_le_right hbtb
  have e1 := List.getElem?_eq_getElem h1
  have e2 := List.getElem?_eq_getElem h2
  refine ⟨_, _, e1, e2, ?_, ?_⟩
  · rintro ⟨hc, hv, ht⟩
    simp [GShare.predict, e1, e2, hc, hv, ht, hsh]
  · intro hn
    unfold GShare.predict
    simp only [e1, e2, hsh, if_true]
    by_cases hc : g.BHT_[((PC >>> 2) ^^^ g.BHR_) &&& g.BHR_mask_] ≥ 2
    · have hn2 : ¬ (g.BTB_[(PC >>> 2) &&& g.BTB_mask_].valid = true ∧
          g.BTB_[(PC >>> 2) &&& g.BTB_mask_].tag = PC >>> (g.BTB_shift_ + 2)) :=
        fun hh => hn ⟨hc, hh.1, hh.2⟩
      simp [hc, hn2]
    · simp [hc]

/-- Witness for C15: a predictor with a strongly taken counter and a valid
entry for the PC 0x10. -/
theorem predict_spec_witness : trained_gshare.predict 16 = .ok (64, trained_gshare) := by
  obtain ⟨count, row, h1, h2, h3, _⟩ := predict_spec trained_gshare 16
    (by decide) (by decide) (by decide)
  have e1 : count = 3 := by
    have : (some 3 : Option Nat) = some count := h1
    cases this; rfl
  have e2 : row = ⟨true, 1, 64⟩ := by
    have : (some ⟨true, 1, 64⟩ : Option BTB_entry_t) = some row := h2
    cases this; rfl
  subst e1 e2
  exact h3 (by decide)

theorem or_bit_mod (y : Nat) (t : Bool) :
    (y % 4294967296) ||| (if t then 1 else 0) = (y ||| (if t then 1 else 0)) % 4294967296 := by
  cases t
  · simp
  · apply Nat.eq_of_testBit_eq
    intro i
    have hM : (4294967296 : Nat) = 2 ^ 32 := by norm_num
    rw [hM]
    simp only [if_true, Nat.testBit_or, Nat.testBit_mod_two_pow]
    by_cases hi : i < 32
    · simp [hi]
    · have h1 : Nat.testBit 1 i = false := by
        apply Nat.testBit_eq_false_of_lt
        have : 2 ^ 32 ≤ 2 ^ i := Nat.pow_le_pow_right (by norm_num) (by omega)
        omega
      simp [hi, h1]

theorem GShare.update_bhr_lt (g : GShare) (taken : Bool) :
    (g.update_bhr taken).BHR_ < 4294967296 := by
  have hM : (4294967296 : Nat) = 2 ^ 32 := by norm_num
  simp only [GShare.update_bhr]
  rw [hM]
  apply Nat.or_lt_two_pow
  · exact Nat.mod_lt _ (by norm_num)
  · cases taken <;> simp

theorem GShare.update_frame (g g1 : GShare) (PC next_PC : Nat) (taken : Bool)
    (h : g.update PC next_PC taken = .ok g1) : g1 = g.update_bhr taken := by
  rw [GShare.update_eq] at h
  split_ifs at h
  cases h
  rfl

theorem GShare.run_frame (ops : List PredictorCall) :
    ∀ (g g1 : GShare), g.run ops = .ok g1 →
      g1.BTB_ = g.BTB_ ∧ g1.BHT_ = g.BHT_ ∧ g1.BTB_shift_ = g.BTB_shift_ ∧
      g1.BTB_mask_ = g.BTB_mask_ ∧ g1.BHR_mask_ = g.BHR_mask_ ∧
      (g.BHR_ < 4294967296 → g1.BHR_ < 4294967296) := by
  induction ops with
  | nil =>
    intro g g1 h
    simp only [GShare.run] at h
    cases h
    exact ⟨rfl, rfl, rfl, rfl, rfl, id⟩
  | cons op rest ih =>
    intro g g1 h
    cases op with
    | predict PC =>
      simp only [GShare.run] at h
      cases hp : g.predict PC with
      | abort => simp [hp] at h
      | undefined => simp [hp] at h
      | ok r =>
        obtain ⟨v, g2⟩ := r
        simp only [hp] at h
        have e := GShare.predict_state g g2 PC v hp
        subst e
        exact ih _ _ h
    | update PC next_PC taken =>
      simp only [GShare.run] at h
      cases hu : g.update PC next_PC taken with
      | abort => simp [hu] at h
      | undefined => simp [hu] at h
      | ok g2 =>
        simp only [hu] at h
        have e := GShare.update_frame g g2 PC next_PC taken hu
        have hi := ih _ _ h
        subst e
        refine ⟨hi.1, hi.2.1, hi.2.2.1, hi.2.2.2.1, hi.2.2.2.2.1, fun _ => ?_⟩
        exact hi.2.2.2.2.2 (GShare.update_bhr_lt g taken)

/-- C16 at a fresh `GShare(4, 2)` and at a predictor with every counter at 3:
`count++` and `count--` yield the value of `count` before the step, so
`update(0, 8, true)` stores 0 again where the counter was 0 (not 1) and
`update(16, 64, false)` stores 3 again where it was 3 (not 2). -/
theorem update_leaves_counter :
    GShare.new sample_log2ceil 4 2 = .ok sample_gshare ∧
    sample_gshare.BHT_[((0 >>> 2) ^^^ sample_gshare.BHR_) &&& sample_gshare.BHR_mask_]?
      = some 0 ∧
    sample_gshare.update 0 8 true =
      .ok { BTB_ := sample_gshare.BTB_, BHT_ := [0, 0, 0, 0], BHR_ := 1,
            BTB_shift_ := 2, BTB_mask_ := 3, BHR_mask_ := 3 } ∧
    trained_gshare.BHT_[((16 >>> 2) ^^^ trained_gshare.BHR_) &&& trained_gshare.BHR_mask_]?
      = some 3 ∧
    trained_gshare.update 16 64 false =
      .ok { BTB_ := trained_gshare.BTB_, BHT_ := [3, 3, 3, 3], BHR_ := 0,
            BTB_shift_ := 2, BTB_mask_ := 3, BHR_mask_ := 3 } ∧
    inc_two_bit_counter 0 = 0 ∧ dec_two_bit_counter 3 = 3 := by
  decide

/-- C17 at a fresh `GShare(4, 2)`: `update(0, 8, true)` changes a copy of the
entry at the install index 0, so afterwards the table still holds the invalid
entry there, not a valid entry with target 8. -/
theorem update_leaves_btb :
    GShare.new sample_log2ceil 4 2 = .ok sample_gshare ∧
    (0 >>> 2) ^^^ sample_gshare.BHR_ = 0 ∧
    (∃ g1, sample_gshare.update 0 8 true = .ok g1 ∧
      g1.BTB_[0]? = some ⟨false, 0, 0⟩ ∧ g1.BTB_[0]? ≠ some ⟨true, 0 >>> (2 + 2), 8⟩ ∧
      g1.BTB_ = sample_gshare.BTB_) := by
  refine ⟨by decide, by decide, ⟨sample_gshare.update_bhr true, ?_, ?_, ?_, ?_⟩⟩ <;> decide

/-- C18 as stated fails: in `GShare(4, 2)` three taken updates leave the BHR
at 7; the third takes it from 3 to 7, not to `((3 << 1) | 1) & 3 = 3`, and 7
is not below `2 ^ 2`. -/
theorem update_bhr_not_masked :
    GShare.new sample_log2ceil 4 2 = .ok sample_gshare ∧
    sample_gshare.run [.update 0 8 true, .update 4 8 true] =
      .ok history3_gshare ∧
    history3_gshare.update 0 8 true =
      .ok { BTB_ := sample_gshare.BTB_, BHT_ := [0, 0, 0, 0], BHR_ := 7,
            BTB_shift_ := 2, BTB_mask_ := 3, BHR_mask_ := 3 } ∧
    (7 : Nat) ≠ ((3 <<< 1) ||| 1) &&& (2 ^ 2 - 1) ∧ ¬ (7 : Nat) < 2 ^ 2 := by
  decide

/-- C18, amended: an `update` whose table accesses are in range returns, and
the BHR after it is `((BHR_before << 1) | taken) mod 2^32`, with no mask to
the history width; consequently the BHR is below `2^32` in every state
reachable from construction. -/
theorem update_bhr_spec (g : GShare) (PC next_PC : Nat) (taken : Bool)
    (hbht : g.BHR_mask_ < g.BHT_.length)
    (hbtb : taken = true → (PC >>> 2) ^^^ g.BHR_ < g.BTB_.length ∧ g.BTB_shift_ + 2 < 32) :
    (∃ g1, g.update PC next_PC taken = .ok g1 ∧
      g1.BHR_ = ((g.BHR_ <<< 1) ||| (if taken then 1 else 0)) % 4294967296) ∧
    (∀ (log2ceil : Nat → Nat) (BTB_size BHR_size : Nat) (g0 gk : GShare)
        (ops : List PredictorCall),
      GShare.new log2ceil BTB_size BHR_size = .ok g0 → g0.run ops = .ok gk →
      gk.BHR_ < 4294967296) := by
  constructor
  · have h1 : ((PC >>> 2) ^^^ g.BHR_) &&& g.BHR_mask_ < g.BHT_.length :=
      Nat.lt_of_le_of_lt Nat.and_le_right hbht
    refine ⟨g.update_bhr taken, ?_, ?_⟩
    · rw [GShare.update_eq, if_pos ⟨h1, hbtb⟩]
    · simp only [GShare.update_bhr]
      exact or_bit_mod _ _
  · intro log2ceil BTB_size BHR_size g0 gk ops h0 hr
    have hf := GShare.run_frame ops g0 gk hr
    apply hf.2.2.2.2.2
    unfold GShare.new at h0
    split_ifs at h0
    cases h0
    norm_num

/-- Witness for C18 (amended): the third taken update of the example. -/
theorem update_bhr_spec_witness :
    ∃ g1, history3_gshare.update 0 8 true = .ok g1 ∧
      g1.BHR_ =
        ((history3_gshare.BHR_ <<< 1) ||| (if true then 1 else 0)) % 4294967296 :=
  (update_bhr_spec history3_gshare 0 8 true (by decide)
    (fun _ => by decide)).1

/-- In every state reachable from a construction that returns, with a BTB of
at least one entry, the BHT index of `predict` and `update_bht` and the BTB
index of `predict` are in range. -/
theorem GShare.masked_indices_in_range (log2ceil : Nat → Nat) (BTB_size BHR_size : Nat)
    (g0 g : GShare) (ops : List PredictorCall) (PC : Nat)
    (hsz : 0 < BTB_size) (hsz32 : BTB_size < 4294967296)
    (h0 : GShare.new log2ceil BTB_size BHR_size = .ok g0) (hr : g0.run ops = .ok g) :
    ((PC >>> 2) ^^^ g.BHR_) &&& g.BHR_mask_ < g.BHT_.length ∧
    (PC >>> 2) &&& g.BTB_mask_ < g.BTB_.length := by
  have hf := GShare.run_frame ops g0 g hr
  unfold GShare.new at h0
  split_ifs at h0
  cases h0
  simp only at hf
  rw [hf.1, hf.2.1, hf.2.2.2.1, hf.2.2.2.2.1]
  simp only [List.length_replicate, Nat.one_shiftLeft]
  constructor
  · have hp : 0 < 2 ^ BHR_size := Nat.pow_pos (by norm_num)
    have := @Nat.and_le_right ((PC >>> 2) ^^^ g.BHR_) (2 ^ BHR_size - 1)
    omega
  · have := @Nat.and_le_right (PC >>> 2) ((BTB_size + 4294967296 - 1) % 4294967296)
    omega

/-- C19 at a fresh `GShare(4, 2)`: `update(0x40, 0x80, true)` computes the
BTB index `(0x40 >> 2) ^ BHR_ = 16` without a mask and reads `BTB_[16]` in a
table of 4 entries, an access out of bounds. -/
theorem update_btb_out_of_bounds :
    GShare.new sample_log2ceil 4 2 = .ok sample_gshare ∧
    (64 >>> 2) ^^^ sample_gshare.BHR_ = 16 ∧
    sample_gshare.BTB_.length = 4 ∧
    sample_gshare.update_btb 64 128 = .undefined ∧
    sample_gshare.update 64 128 true = .undefined := by
  decide

/-- C20: in every state reachable from a construction that returns, by calls
of `predict` and `update` that return, every BHT counter is 0 and every BTB
entry is invalid, and `predict(pc)` returns `(pc + 4) mod 2^32`, the result
of `BranchPredictor::predict`, leaving the predictor as it was. -/
theorem gshare_predicts_fallthrough (log2ceil : Nat → Nat) (BTB_size BHR_size : Nat)
    (g0 g : GShare) (ops : List PredictorCall)
    (h0 : GShare.new log2ceil BTB_size BHR_size = .ok g0) (hr : g0.run ops = .ok g) :
    (∀ count ∈ g.BHT_, count = 0) ∧ (∀ row ∈ g.BTB_, row.valid = false) ∧
    (∀ PC, g.predict PC = .ok (BranchPredictor.predict PC, g)) ∧
    (∀ PC, BranchPredictor.predict PC = (PC + 4) % 4294967296) := by
  have hf := GShare.run_frame ops g0 g hr
  unfold GShare.new at h0
  split_ifs at h0
  cases h0
  simp only at hf
  refine ⟨?_, ?_, ?_, fun _ => rfl⟩
  · intro count hc
    rw [hf.2.1] at hc
    exact List.eq_of_mem_replicate hc
  · intro row hrow
    rw [hf.1] at hrow
    rw [List.eq_of_mem_replicate hrow]
  · intro PC
    have hp : 0 < 2 ^ BHR_size := Nat.pow_pos (by norm_num)
    have hle := @Nat.and_le_right ((PC >>> 2) ^^^ g.BHR_) (2 ^ BHR_size - 1)
    have hlt : ((PC >>> 2) ^^^ g.BHR_) &&& g.BHR_mask_ < 1 <<< BHR_size := by
      rw [hf.2.2.2.2.1, Nat.one_shiftLeft]
      omega
    have hget : g.BHT_[((PC >>> 2) ^^^ g.BHR_) &&& g.BHR_mask_]? = some 0 := by
      rw [hf.2.1]
      exact List.getElem?_replicate_of_lt hlt
    simp [GShare.predict, hget, BranchPredictor.predict]

/-- Witness for C20: `GShare(4, 2)` after three taken updates. -/
theorem gshare_predicts_fallthrough_witness :
    (sample_gshare.update_bhr true |>.update_bhr true |>.update_bhr true).predict 16 =
      .ok (BranchPredictor.predict 16,
        (sample_gshare.update_bhr true |>.update_bhr true |>.update_bhr true)) :=
  (gshare_predicts_fallthrough sample_log2ceil 4 2 sample_gshare
    (sample_gshare.update_bhr true |>.update_bhr true |>.update_bhr true)
    [.update 0 8 true, .update 4 8 true, .update 0 8 true] (by decide) (by decide)).2.2.1 16

end tinyrv
